import Mathlib

/-!
Verification of the Liqu Finance backend agent core against its
natural-language specification.  The definitions below are shallow
embeddings of the TypeScript sources (`llm-analyzer.ts`, `tx-executor.ts`,
`agent.ts`, the event listener and the ERC-8004 service): JavaScript
`BigInt` arithmetic is modelled by `Nat` (all values involved are
nonnegative, and `BigInt` division truncates toward zero, which on
nonnegative operands is `Nat` division; division by zero throws, which is
modelled by `Option`), JavaScript integer-valued `number` arithmetic by
`Int`, and the few fractional `number` computations by `ℚ`.
-/

namespace Liqu

/-! ## types.ts / config.ts -/

inductive StrategyName
  | CONSERVATIVE
  | BALANCED
  | DEGEN
deriving DecidableEq, Repr

structure StrategyConfig where
  tickRangeMultiplier : Int
  maxSlippage : ℚ
  rebalanceThreshold : ℚ
  description : String
deriving DecidableEq, Repr

/-- `STRATEGY_CONFIG` from `config.ts`. -/
def STRATEGY_CONFIG : StrategyName → StrategyConfig
  | .CONSERVATIVE =>
    { tickRangeMultiplier := 2, maxSlippage := 0.005, rebalanceThreshold := 0.7,
      description := "Narrow range, low risk, frequent rebalancing" }
  | .BALANCED =>
    { tickRangeMultiplier := 10, maxSlippage := 0.01, rebalanceThreshold := 0.85,
      description := "Medium range, moderate risk" }
  | .DEGEN =>
    { tickRangeMultiplier := 50, maxSlippage := 0.03, rebalanceThreshold := 0.95,
      description := "Wide range, high yield potential" }

inductive Action
  | MINT
  | CLOSE
  | HOLD
  | REBALANCE
deriving DecidableEq, Repr

/-- `PositionDecision` from `types.ts` (`tickLower`/`tickUpper` optional). -/
structure PositionDecision where
  action : Action
  tickLower : Option Int := none
  tickUpper : Option Int := none
  reason : String
  confidence : Nat
deriving DecidableEq, Repr

/-- `PoolAnalysis` from `types.ts`. -/
structure PoolAnalysis where
  currentTick : Int
  currentPrice : ℚ
  liquidity : String
  feeGrowth0 : String
  feeGrowth1 : String
deriving DecidableEq, Repr

/-- The `{tickLower, tickUpper, liquidity}` tuples handed to the analyzers. -/
structure ExistingPosition where
  tickLower : Int
  tickUpper : Int
  liquidity : String
deriving DecidableEq, Repr

/-! ## llm-analyzer.ts : getFallbackDecision -/

/-- `Math.floor(tick / tickSpacing) * tickSpacing` (floor division on
JavaScript numbers; exact for tick magnitudes in range). -/
def alignTick (tick spacing : Int) : Int :=
  Int.fdiv tick spacing * spacing

/-- The out-of-range test applied to one position inside
`getFallbackDecision` (lines 47-53 of `llm-analyzer.ts`). -/
def positionOutOfRange (currentTick : Int) (threshold : ℚ) (pos : ExistingPosition) : Bool :=
  let posCenter : ℚ := ((pos.tickLower : ℚ) + (pos.tickUpper : ℚ)) / 2
  let distanceFromCenter : ℚ := |(currentTick : ℚ) - posCenter|
  let posRange : ℚ := ((pos.tickUpper : ℚ) - (pos.tickLower : ℚ)) / 2
  let outOfRangeThreshold : ℚ := posRange * threshold
  decide (distanceFromCenter > outOfRangeThreshold)

/-- `getFallbackDecision` from `llm-analyzer.ts` lines 16-73. -/
def getFallbackDecision (poolState : PoolAnalysis) (strategy : StrategyName)
    (existingPositions : List ExistingPosition) : PositionDecision :=
  let config := STRATEGY_CONFIG strategy
  let currentTick := poolState.currentTick
  let tickSpacing : Int := 60
  let tickRange := config.tickRangeMultiplier * tickSpacing
  let tickLower := alignTick (currentTick - tickRange) tickSpacing
  let tickUpper := alignTick (currentTick + tickRange) tickSpacing
  if existingPositions.length = 0 then
    { action := .MINT, tickLower := some tickLower, tickUpper := some tickUpper,
      reason := "[Fallback] LLM unavailable - auto-minting based on strategy config",
      confidence := 75 }
  else
    let hasOutOfRangePosition :=
      existingPositions.any (positionOutOfRange currentTick config.rebalanceThreshold)
    if hasOutOfRangePosition then
      { action := .REBALANCE, tickLower := some tickLower, tickUpper := some tickUpper,
        reason := "[Fallback] LLM unavailable - auto-rebalancing out-of-range position",
        confidence := 70 }
    else
      { action := .HOLD,
        reason := "[Fallback] LLM unavailable - positions appear in range",
        confidence := 60 }

/-! ## tx-executor.ts : Uniswap V3/V4 liquidity math (pure BigInt)

`BigInt` values here are nonnegative throughout (square-root prices and
token amounts), so they are modelled by `Nat`; `BigInt` division
truncates, which is `Nat` division on nonnegative operands, and throws a
`RangeError` on a zero divisor, which is modelled by `Option.none`. -/

/-- JavaScript `BigInt` division: throws on a zero divisor. -/
def bdiv (x y : Nat) : Option Nat :=
  if y = 0 then none else some (x / y)

def Q96 : Nat := 1 <<< 96

/-- `getLiquidityForAmount0` from `tx-executor.ts` lines 89-95. -/
def getLiquidityForAmount0 (sqrtPriceAX96 sqrtPriceBX96 amount0 : Nat) : Option Nat :=
  let p := if sqrtPriceAX96 > sqrtPriceBX96
    then (sqrtPriceBX96, sqrtPriceAX96) else (sqrtPriceAX96, sqrtPriceBX96)
  do
    let intermediate ← bdiv (p.1 * p.2) Q96
    bdiv (amount0 * intermediate) (p.2 - p.1)

/-- `getLiquidityForAmount1` from `tx-executor.ts` lines 97-102. -/
def getLiquidityForAmount1 (sqrtPriceAX96 sqrtPriceBX96 amount1 : Nat) : Option Nat :=
  let p := if sqrtPriceAX96 > sqrtPriceBX96
    then (sqrtPriceBX96, sqrtPriceAX96) else (sqrtPriceAX96, sqrtPriceBX96)
  bdiv (amount1 * Q96) (p.2 - p.1)

/-- `getLiquidityForAmounts` from `tx-executor.ts` lines 70-87. -/
def getLiquidityForAmounts (sqrtPriceX96 sqrtPriceAX96 sqrtPriceBX96 amount0 amount1 : Nat) :
    Option Nat :=
  let p := if sqrtPriceAX96 > sqrtPriceBX96
    then (sqrtPriceBX96, sqrtPriceAX96) else (sqrtPriceAX96, sqrtPriceBX96)
  if sqrtPriceX96 ≤ p.1 then
    getLiquidityForAmount0 p.1 p.2 amount0
  else if sqrtPriceX96 < p.2 then do
    let liq0 ← getLiquidityForAmount0 sqrtPriceX96 p.2 amount0
    let liq1 ← getLiquidityForAmount1 p.1 sqrtPriceX96 amount1
    pure (if liq0 < liq1 then liq0 else liq1)
  else
    getLiquidityForAmount1 p.1 p.2 amount1

/-! ## tx-executor.ts : tickToSqrtPriceX96

The bit test `(absTick & 2^k) !== 0` is written `absTick / 2^k % 2 = 1`. -/

/-- One magic-constant multiplication step: `(ratio * magic) >> 128n`. -/
def mulShift (ratio magic : Nat) : Nat :=
  ratio * magic / 2 ^ 128

/-- `tickToSqrtPriceX96` from `tx-executor.ts` lines 38-68. -/
def tickToSqrtPriceX96 (tick : Int) : Nat :=
  let absTick := tick.natAbs
  let ratio := if absTick % 2 = 1
    then 0xfffcb933bd6fad37aa2d162d1a594001 else 0x100000000000000000000000000000000
  let ratio := if absTick / 0x2 % 2 = 1 then mulShift ratio 0xfff97272373d413259a46990580e213a else ratio
  let ratio := if absTick / 0x4 % 2 = 1 then mulShift ratio 0xfff2e50f5f656932ef12357cf3c7fdcc else ratio
  let ratio := if absTick / 0x8 % 2 = 1 then mulShift ratio 0xffe5caca7e10e4e61c3624eaa0941cd0 else ratio
  let ratio := if absTick / 0x10 % 2 = 1 then mulShift ratio 0xffcb9843d60f6159c9db58835c926644 else ratio
  let ratio := if absTick / 0x20 % 2 = 1 then mulShift ratio 0xff973b41fa98c081472e6896dfb254c0 else ratio
  let ratio := if absTick / 0x40 % 2 = 1 then mulShift ratio 0xff2ea16466c96a3843ec78b326b52861 else ratio
  let ratio := if absTick / 0x80 % 2 = 1 then mulShift ratio 0xfe5dee046a99a2a811c461f1969c3053 else ratio
  let ratio := if absTick / 0x100 % 2 = 1 then mulShift ratio 0xfcbe86c7900a88aedcffc83b479aa3a4 else ratio
  let ratio := if absTick / 0x200 % 2 = 1 then mulShift ratio 0xf987a7253ac413176f2b074cf7815e54 else ratio
  let ratio := if absTick / 0x400 % 2 = 1 then mulShift ratio 0xf3392b0822b70005940c7a398e4b70f3 else ratio
  let ratio := if absTick / 0x800 % 2 = 1 then mulShift ratio 0xe7159475a2c29b7443b29c7fa6e889d9 else ratio
  let ratio := if absTick / 0x1000 % 2 = 1 then mulShift ratio 0xd097f3bdfd2022b8845ad8f792aa5825 else ratio
  let ratio := if absTick / 0x2000 % 2 = 1 then mulShift ratio 0xa9f746462d870fdf8a65dc1f90e061e5 else ratio
  let ratio := if absTick / 0x4000 % 2 = 1 then mulShift ratio 0x70d869a156d2a1b890bb3df62baf32f7 else ratio
  let ratio := if absTick / 0x8000 % 2 = 1 then mulShift ratio 0x31be135f97d08fd981231505542fcfa6 else ratio
  let ratio := if absTick / 0x10000 % 2 = 1 then mulShift ratio 0x9aa508b5b7a84e1c677de54f3e99bc9 else ratio
  let ratio := if absTick / 0x20000 % 2 = 1 then mulShift ratio 0x5d6af8dedb81196699c329225ee604 else ratio
  let ratio := if absTick / 0x40000 % 2 = 1 then mulShift ratio 0x2216e584f5fa1ea926041bedfe98 else ratio
  let ratio := if absTick / 0x80000 % 2 = 1 then mulShift ratio 0x48a170391f7dc42444e8fa2 else ratio
  let ratio := if tick > 0 then (2 ^ 256 - 1) / ratio else ratio
  ratio / 2 ^ 32 + (if ratio % 2 ^ 32 > 0 then 1 else 0)

/-! ## tx-executor.ts : executeMintPosition / executeRebalance

The transaction-submitting parts are modelled by their decision structure:
the outer `Option` is a thrown exception inside the liquidity math, and
`MintOutcome.skipped` is the `return undefined` no-submission path. -/

inductive MintOutcome
  | skipped
  | minted (liquidity : Nat)
deriving DecidableEq, Repr

/-- The liquidity computation and skip decision of `executeMintPosition`
(`tx-executor.ts` lines 106-137): candidate liquidity from the current
pool price and the two tick bounds, the 1% downward margin, and the
zero-liquidity no-op path.  `MintOutcome.minted l` means a mint operation
is submitted with liquidity `l`. -/
def executeMintPosition (sqrtPriceCurrent : Nat) (tickLower tickUpper : Int)
    (amount0Max amount1Max : Nat) : Option MintOutcome := do
  let sqrtPriceA := tickToSqrtPriceX96 tickLower
  let sqrtPriceB := tickToSqrtPriceX96 tickUpper
  let liquidity ← getLiquidityForAmounts sqrtPriceCurrent sqrtPriceA sqrtPriceB
    amount0Max amount1Max
  let liquidity := liquidity * 99 / 100
  if liquidity = 0 then pure .skipped else pure (.minted liquidity)

structure MintResult where
  tokenId : Option Nat
  txHash : String
  liquidity : String
  amount0 : String
  amount1 : String
deriving DecidableEq, Repr

structure CloseResult where
  tokenId : Nat
  txHash : String
deriving DecidableEq, Repr

structure RebalanceResult where
  closeTxHashes : List CloseResult
  mintResult : Option MintResult
  newTokenId : Option Nat
deriving DecidableEq, Repr

/-- The ledger-mutating operations `executeRebalance` can submit. -/
inductive RebalanceOp
  | closePosition (tokenId : Nat)
  | mintPosition (tickLower tickUpper : Int) (amount0Max amount1Max : Nat)
deriving DecidableEq, Repr

/-- The environment `executeRebalance` reads: the deposit's position list
at the first read, the confirmed close transaction hashes, the deposit
balances at the re-read after all closes, and what `executeMintPosition`
returns if it is invoked. -/
structure RebalanceEnv where
  positionTokenIds : List Nat
  closeTx : Nat → String
  amount0Remaining : Nat
  amount1Remaining : Nat
  mintReturn : Option MintResult

/-- `executeRebalance` from `tx-executor.ts` lines 189-235, returning the
sequence of submitted ledger operations alongside the result. -/
def executeRebalance (newTickLower newTickUpper : Int) (env : RebalanceEnv) :
    List RebalanceOp × RebalanceResult :=
  let closeOps := env.positionTokenIds.map RebalanceOp.closePosition
  let closeTxHashes := env.positionTokenIds.map (fun t => CloseResult.mk t (env.closeTx t))
  let amount0Max := env.amount0Remaining
  let amount1Max := env.amount1Remaining
  if amount0Max = 0 ∧ amount1Max = 0 then
    (closeOps, { closeTxHashes := closeTxHashes, mintResult := none, newTokenId := none })
  else
    (closeOps ++ [RebalanceOp.mintPosition newTickLower newTickUpper amount0Max amount1Max],
      { closeTxHashes := closeTxHashes,
        mintResult := env.mintReturn,
        newTokenId := env.mintReturn.bind MintResult.tokenId })

/-! ## tx-executor.ts : positionTickCache

`positionTickCache` is a `Map<number, {tickLower, tickUpper}>`:
`executeMintPosition` sets the entry for the token id extracted from the
confirmation's `PositionCreated` record, `executeClosePosition` deletes
the entry after the close confirms.  The ledger's own open-position list
for the deposit gains the id at mint confirmation and loses it at close
confirmation. -/

/-- JavaScript `Map.set` on an association list (replace or append). -/
def cacheSet (cache : List (Nat × Int × Int)) (tokenId : Nat) (tickLower tickUpper : Int) :
    List (Nat × Int × Int) :=
  if cache.any (fun e => e.1 = tokenId) then
    cache.map (fun e => if e.1 = tokenId then (tokenId, tickLower, tickUpper) else e)
  else
    cache ++ [(tokenId, tickLower, tickUpper)]

/-- JavaScript `Map.delete` on an association list. -/
def cacheDelete (cache : List (Nat × Int × Int)) (tokenId : Nat) : List (Nat × Int × Int) :=
  cache.filter (fun e => e.1 ≠ tokenId)

structure AgentChainState where
  positionTickCache : List (Nat × Int × Int)
  openPositions : List Nat
deriving DecidableEq, Repr

/-- A confirmed mint (with the token id from the emitted creation record)
or a confirmed close. -/
inductive ChainEvent
  | mintConfirm (tokenId : Nat) (tickLower tickUpper : Int)
  | closeConfirm (tokenId : Nat)
deriving DecidableEq, Repr

/-- Effect of one confirmation on the side-cache (`executeMintPosition`
line 155 / `executeClosePosition` line 184) and on the ledger's open
positions. -/
def stepState (s : AgentChainState) : ChainEvent → AgentChainState
  | .mintConfirm tokenId tickLower tickUpper =>
      { positionTickCache := cacheSet s.positionTickCache tokenId tickLower tickUpper,
        openPositions := s.openPositions ++ [tokenId] }
  | .closeConfirm tokenId =>
      { positionTickCache := cacheDelete s.positionTickCache tokenId,
        openPositions := s.openPositions.filter (fun t => t ≠ tokenId) }

/-- States reachable from the initial empty cache and empty position
list by mint/close confirmations. -/
inductive ReachableState : AgentChainState → Prop
  | init : ReachableState ⟨[], []⟩
  | step {s : AgentChainState} (e : ChainEvent) :
      ReachableState s → ReachableState (stepState s e)

/-! ## event listener (startDepositListener / poll) -/

/-- Watermark dynamics of one `poll` call (event listener lines 38-116):
first-run initialization of `lastBlock`, the early return when the chain
has not advanced, and the advance at the end of the `try` block —
executed only when the query-and-process body raised no error
(`bodyOk`); a raised error is caught and logged and leaves the watermark
untouched. -/
def pollStep (lastBlock currentBlock : Nat) (bodyOk : Bool) : Nat :=
  let lb := if lastBlock = 0 then currentBlock - 100 else lastBlock
  if currentBlock ≤ lb then lb
  else if bodyOk then currentBlock else lb

/-- The `queryFilter` windows issued by one successful `poll` call:
`DepositCreated` then `AgentAssigned`, both over
`(lastBlock + 1, currentBlock]`. -/
def pollQueries (lastBlock currentBlock : Nat) : List (Nat × Nat) :=
  let lb := if lastBlock = 0 then currentBlock - 100 else lastBlock
  if currentBlock ≤ lb then []
  else [(lb + 1, currentBlock), (lb + 1, currentBlock)]

/-! ## agent.ts / part_004 : the decision stage of processDeposit -/

/-- What the tail of `processDeposit` does with a decision: whether a
validation request is submitted and whether `executeDecision` is called. -/
structure DecisionPipelineTrace where
  validationRequested : Bool
  executed : Bool
deriving DecidableEq, Repr

/-- Decision stage of `processDeposit` in `agent.ts` (lines 92-128):
the confidence gate at threshold 60, then the validation request for
non-HOLD actions, then `executeDecision`. -/
def processDepositDecisionStage (decision : PositionDecision) : DecisionPipelineTrace :=
  if decision.confidence < 60 then
    { validationRequested := false, executed := false }
  else
    { validationRequested := decide (decision.action ≠ .HOLD), executed := true }

/-- Decision stage of `processDeposit` in the unnamed agent variant
(`part_004` lines 109-131): no confidence gate — the validation request
and `executeDecision` happen for every decision. -/
def processDepositDecisionStageNoGate (decision : PositionDecision) : DecisionPipelineTrace :=
  { validationRequested := decide (decision.action ≠ .HOLD), executed := true }

/-! ## erc8004-service.ts : validation store and reputation -/

structure ValidationRecord where
  dataHash : String
  agentId : Nat
  validatorId : Nat
  score : Option ℚ
  responded : Bool
  timestamp : Nat
deriving DecidableEq, Repr

structure ValidationRequestEvent where
  dataHash : String
  agentValidatorId : Nat
  agentServerId : Nat
deriving DecidableEq, Repr

structure ValidationResponseEvent where
  dataHash : String
  response : ℚ
deriving DecidableEq, Repr

/-- The record appended by `requestValidation` (lines 295-302):
`score = null`, `responded = false`. -/
def requestRecord (dataHash : String) (myAgentId validatorAgentId timestamp : Nat) :
    ValidationRecord :=
  { dataHash := dataHash, agentId := myAgentId, validatorId := validatorAgentId,
    score := none, responded := false, timestamp := timestamp }

/-- The in-memory update of `submitValidationResponse` (lines 316-320):
the first record matching the hash gets its score set and `responded`
set to `true` together; a missing match is a no-op. -/
def setResponse (dataHash : String) (score : ℚ) :
    List ValidationRecord → List ValidationRecord
  | [] => []
  | r :: rs =>
    if r.dataHash = dataHash then
      { r with score := some score, responded := true } :: rs
    else
      r :: setResponse dataHash score rs

/-- The `responseMap` built by `getAgentReputation` (lines 384-388): a
`Map.set` per response event, so the last event for a hash wins. -/
def buildResponseMap (responseLogs : List ValidationResponseEvent) : String → Option ℚ :=
  responseLogs.foldl
    (fun m e => fun dh => if dh = e.dataHash then some e.response else m dh)
    (fun _ => none)

/-- The on-chain event merge of `getAgentReputation` (lines 382-405):
request events whose hash is already in the store are skipped; the rest
are appended with the response score when one was found, `responded`
exactly when a response score was found. -/
def mergeOnChainEvents (store : List ValidationRecord)
    (requestLogs : List ValidationRequestEvent)
    (responseLogs : List ValidationResponseEvent) : List ValidationRecord :=
  let knownHashes := store.map (fun r => r.dataHash)
  let responseMap := buildResponseMap responseLogs
  store ++ (requestLogs.filter (fun e => decide (e.dataHash ∉ knownHashes))).map
    (fun e =>
      { dataHash := e.dataHash, agentId := e.agentServerId,
        validatorId := e.agentValidatorId,
        score := responseMap e.dataHash,
        responded := (responseMap e.dataHash).isSome, timestamp := 0 })

/-- Validation stores reachable from the empty store through
`requestValidation`, `submitValidationResponse` and the event merge
inside `getAgentReputation`. -/
inductive ReachableStore : List ValidationRecord → Prop
  | init : ReachableStore []
  | request {s : List ValidationRecord} (dataHash : String)
      (myAgentId validatorAgentId timestamp : Nat) :
      ReachableStore s →
      ReachableStore (s ++ [requestRecord dataHash myAgentId validatorAgentId timestamp])
  | respond {s : List ValidationRecord} (dataHash : String) (score : ℚ) :
      ReachableStore s → ReachableStore (setResponse dataHash score s)
  | merge {s : List ValidationRecord} (requestLogs : List ValidationRequestEvent)
      (responseLogs : List ValidationResponseEvent) :
      ReachableStore s → ReachableStore (mergeOnChainEvents s requestLogs responseLogs)

inductive ValidationStatus
  | RESPONDED (score : Option ℚ)
  | PENDING
  | NOT_FOUND
deriving DecidableEq, Repr

/-- The in-memory branch of `getValidationStatus` (lines 329-333);
`none` means the function falls through to the on-chain query. -/
def getValidationStatusLocal (store : List ValidationRecord) (dataHash : String) :
    Option ValidationStatus :=
  match store.find? (fun r => r.dataHash = dataHash) with
  | some record =>
      if record.responded then some (.RESPONDED record.score) else some .PENDING
  | none => none

/-- `Math.round` on a nonnegative JavaScript number: `⌊x + 1/2⌋`. -/
def jsRound (q : ℚ) : Int := ⌊q + 1 / 2⌋

structure AgentReputationStats where
  totalValidations : Nat
  respondedValidations : Nat
  totalFeedbackAuths : Nat
  reputationScore : Int
deriving DecidableEq, Repr

/-- The score aggregation of `getAgentReputation` (lines 411-451),
computed over the store after the event merge: `feedbackAuthorized i`
tells whether the `isFeedbackAuthorized(i, agentId)` query succeeded and
answered true (a failed query is skipped, like an unauthorized one). -/
def getAgentReputation (storeAfterMerge : List ValidationRecord) (agentId : Nat)
    (totalAgents : Nat) (feedbackAuthorized : Nat → Bool) : AgentReputationStats :=
  let allValidations := storeAfterMerge.filter (fun r => r.agentId = agentId)
  let respondedValidations := (allValidations.filter (fun r => r.responded)).length
  let scores := (allValidations.filter (fun r => r.score ≠ none)).map (fun r => r.score.getD 0)
  let averageScore : ℚ := if scores.length > 0 then scores.sum / scores.length else 0
  let feedbackAuths :=
    ((List.range' 1 totalAgents).filter
      (fun i => decide (i ≠ agentId) && feedbackAuthorized i)).length
  let validationScoreComponent := averageScore * 0.6
  let responseRate : ℚ :=
    if allValidations.length > 0 then
      ((respondedValidations : ℚ) / (allValidations.length : ℚ)) * 100
    else 0
  let responseRateComponent := responseRate * 0.2
  let maxPossibleAuths : Nat := max (totalAgents - 1) 1
  let trustRatio : ℚ := ((feedbackAuths : ℚ) / (maxPossibleAuths : ℚ)) * 100
  let trustComponent := trustRatio * 0.2
  let reputationScore : Int :=
    if allValidations.length = 0 ∧ feedbackAuths = 0 then 50
    else jsRound (validationScoreComponent + responseRateComponent + trustComponent)
  { totalValidations := allValidations.length,
    respondedValidations := respondedValidations,
    totalFeedbackAuths := feedbackAuths,
    reputationScore := reputationScore }

end Liqu

namespace Liqu

/-- A pool analysis fixing only the current tick. -/
def poolAtTick (t : Int) : PoolAnalysis :=
  { currentTick := t, currentPrice := 0, liquidity := "0", feeGrowth0 := "0", feeGrowth1 := "0" }

/-- Claim C1: for every pool analysis, strategy and position list, the
deterministic fallback decision is MINT with bounds
`align(currentTick ± multiplier·60)` and confidence 75 when no positions
exist; REBALANCE with the same bounds and confidence 70 when some
position's distance from its center exceeds its half-width times the
strategy's rebalance threshold; HOLD with confidence 60 otherwise.
In particular Scenario A (tick −201600, BALANCED, no positions →
MINT [−202200, −201000] confidence 75) and Scenario B (position
[−202200, −201000] at tick −195000 → REBALANCE confidence 70). -/
theorem getFallbackDecision_spec (poolState : PoolAnalysis) (strategy : StrategyName)
    (existingPositions : List ExistingPosition) :
    (existingPositions = [] →
      getFallbackDecision poolState strategy existingPositions =
        { action := .MINT,
          tickLower := some (alignTick
            (poolState.currentTick - (STRATEGY_CONFIG strategy).tickRangeMultiplier * 60) 60),
          tickUpper := some (alignTick
            (poolState.currentTick + (STRATEGY_CONFIG strategy).tickRangeMultiplier * 60) 60),
          reason := "[Fallback] LLM unavailable - auto-minting based on strategy config",
          confidence := 75 }) ∧
    (existingPositions ≠ [] →
      (∃ pos ∈ existingPositions,
        |(poolState.currentTick : ℚ) - ((pos.tickLower : ℚ) + (pos.tickUpper : ℚ)) / 2| >
          ((pos.tickUpper : ℚ) - (pos.tickLower : ℚ)) / 2 *
            (STRATEGY_CONFIG strategy).rebalanceThreshold) →
      getFallbackDecision poolState strategy existingPositions =
        { action := .REBALANCE,
          tickLower := some (alignTick
            (poolState.currentTick - (STRATEGY_CONFIG strategy).tickRangeMultiplier * 60) 60),
          tickUpper := some (alignTick
            (poolState.currentTick + (STRATEGY_CONFIG strategy).tickRangeMultiplier * 60) 60),
          reason := "[Fallback] LLM unavailable - auto-rebalancing out-of-range position",
          confidence := 70 }) ∧
    (existingPositions ≠ [] →
      (∀ pos ∈ existingPositions,
        ¬ (|(poolState.currentTick : ℚ) - ((pos.tickLower : ℚ) + (pos.tickUpper : ℚ)) / 2| >
          ((pos.tickUpper : ℚ) - (pos.tickLower : ℚ)) / 2 *
            (STRATEGY_CONFIG strategy).rebalanceThreshold)) →
      getFallbackDecision poolState strategy existingPositions =
        { action := .HOLD,
          reason := "[Fallback] LLM unavailable - positions appear in range",
          confidence := 60 }) ∧
    (poolState.currentTick = -201600 →
      getFallbackDecision poolState .BALANCED [] =
        { action := .MINT, tickLower := some (-202200), tickUpper := some (-201000),
          reason := "[Fallback] LLM unavailable - auto-minting based on strategy config",
          confidence := 75 }) ∧
    (poolState.currentTick = -195000 →
      ∀ liq : String,
        (getFallbackDecision poolState .BALANCED
            [{ tickLower := -202200, tickUpper := -201000, liquidity := liq }]).action =
          .REBALANCE ∧
        (getFallbackDecision poolState .BALANCED
            [{ tickLower := -202200, tickUpper := -201000, liquidity := liq }]).confidence =
          70) := by
  refine ⟨?_, ?_, ?_, ?_, ?_⟩
  · intro h
    subst h
    rfl
  · intro hne hex
    obtain ⟨pos, hmem, hgt⟩ := hex
    have hlen : ¬ existingPositions.length = 0 := by
      simpa [List.length_eq_zero] using hne
    have hany : existingPositions.any
        (positionOutOfRange poolState.currentTick
          (STRATEGY_CONFIG strategy).rebalanceThreshold) = true := by
      refine List.any_eq_true.mpr ⟨pos, hmem, ?_⟩
      simp only [positionOutOfRange, decide_eq_true_eq]
      exact hgt
    simp [getFallbackDecision, hlen, hany]
  · intro hne hall
    have hlen : ¬ existingPositions.length = 0 := by
      simpa [List.length_eq_zero] using hne
    have hany : existingPositions.any
        (positionOutOfRange poolState.currentTick
          (STRATEGY_CONFIG strategy).rebalanceThreshold) = false := by
      rw [List.any_eq_false]
      intro pos hmem
      simp only [positionOutOfRange, decide_eq_true_eq]
      exact hall pos hmem
    simp [getFallbackDecision, hlen, hany]
  · intro h
    simp only [getFallbackDecision, STRATEGY_CONFIG, h]
    decide
  · intro h liq
    have hpos : positionOutOfRange (-195000) ((0.85 : ℚ))
        { tickLower := -202200, tickUpper := -201000, liquidity := liq } = true := by
      simp only [positionOutOfRange, decide_eq_true_eq]
      norm_num
    simp [getFallbackDecision, STRATEGY_CONFIG, h, hpos]

/-- C1 witness: Scenario A and Scenario B at concrete inputs. -/
theorem getFallbackDecision_spec_witness :
    getFallbackDecision (poolAtTick (-201600)) .BALANCED [] =
      { action := .MINT, tickLower := some (-202200), tickUpper := some (-201000),
        reason := "[Fallback] LLM unavailable - auto-minting based on strategy config",
        confidence := 75 } ∧
    (getFallbackDecision (poolAtTick (-195000)) .BALANCED
        [{ tickLower := -202200, tickUpper := -201000, liquidity := "1" }]).action =
      .REBALANCE ∧
    (getFallbackDecision (poolAtTick (-195000)) .BALANCED
        [{ tickLower := -202200, tickUpper := -201000, liquidity := "1" }]).confidence =
      70 := by
  refine ⟨?_, ?_, ?_⟩
  · exact (getFallbackDecision_spec (poolAtTick (-201600)) .BALANCED []).2.2.2.1 rfl
  · exact ((getFallbackDecision_spec (poolAtTick (-195000)) .BALANCED []).2.2.2.2 rfl "1").1
  · exact ((getFallbackDecision_spec (poolAtTick (-195000)) .BALANCED []).2.2.2.2 rfl "1").2

end Liqu

namespace Liqu

theorem Q96_ne_zero : Q96 ≠ 0 := by decide

theorem sortPair_of_le {a b : Nat} (h : a ≤ b) :
    (if a > b then (b, a) else (a, b)) = (a, b) := if_neg (by omega)

theorem sortPair_of_gt {a b : Nat} (h : b < a) :
    (if a > b then (b, a) else (a, b)) = (b, a) := if_pos h

theorem getLiquidityForAmount0_eq {a b : Nat} (x : Nat) (h : a < b) :
    getLiquidityForAmount0 a b x = some (x * (a * b / Q96) / (b - a)) := by
  have hba : ¬ b - a = 0 := by omega
  simp [getLiquidityForAmount0, sortPair_of_le h.le, bdiv, Q96_ne_zero, hba]

theorem getLiquidityForAmount1_eq {a b : Nat} (y : Nat) (h : a < b) :
    getLiquidityForAmount1 a b y = some (y * Q96 / (b - a)) := by
  have hba : ¬ b - a = 0 := by omega
  simp [getLiquidityForAmount1, sortPair_of_le h.le, bdiv, hba]

theorem getLiquidityForAmounts_of_lt {a b : Nat} (sqrtP amount0 amount1 : Nat) (h : a < b) :
    getLiquidityForAmounts sqrtP a b amount0 amount1 =
      if sqrtP ≤ a then getLiquidityForAmount0 a b amount0
      else if sqrtP < b then do
        let liq0 ← getLiquidityForAmount0 sqrtP b amount0
        let liq1 ← getLiquidityForAmount1 a sqrtP amount1
        pure (if liq0 < liq1 then liq0 else liq1)
      else getLiquidityForAmount1 a b amount1 := by
  unfold getLiquidityForAmounts
  rw [sortPair_of_le h.le]

/-- Claim C2: `getLiquidityForAmounts` first sorts its two price-bound
arguments, and for sorted bounds `a < b`: when the current price is ≤ `a`
the result is `getLiquidityForAmount0 a b amount0` and is independent of
`amount1`; when the current price is ≥ `b` the result is
`getLiquidityForAmount1 a b amount1` and is independent of `amount0`;
strictly in between, the result is the minimum of the amount0-derived and
amount1-derived single-token estimates. -/
theorem getLiquidityForAmounts_spec (sqrtP a b amount0 amount1 : Nat) :
    (getLiquidityForAmounts sqrtP a b amount0 amount1 =
      getLiquidityForAmounts sqrtP b a amount0 amount1) ∧
    (a < b →
      (sqrtP ≤ a →
        getLiquidityForAmounts sqrtP a b amount0 amount1 =
          getLiquidityForAmount0 a b amount0 ∧
        ∀ amount1' : Nat,
          getLiquidityForAmounts sqrtP a b amount0 amount1 =
            getLiquidityForAmounts sqrtP a b amount0 amount1') ∧
      (b ≤ sqrtP →
        getLiquidityForAmounts sqrtP a b amount0 amount1 =
          getLiquidityForAmount1 a b amount1 ∧
        ∀ amount0' : Nat,
          getLiquidityForAmounts sqrtP a b amount0 amount1 =
            getLiquidityForAmounts sqrtP a b amount0' amount1) ∧
      (a < sqrtP → sqrtP < b →
        ∃ liq0 liq1,
          getLiquidityForAmount0 sqrtP b amount0 = some liq0 ∧
          getLiquidityForAmount1 a sqrtP amount1 = some liq1 ∧
          getLiquidityForAmounts sqrtP a b amount0 amount1 = some (min liq0 liq1))) := by
  constructor
  · unfold getLiquidityForAmounts
    rcases lt_trichotomy a b with h | h | h
    · rw [sortPair_of_le h.le, sortPair_of_gt h]
    · subst h
      rfl
    · rw [sortPair_of_gt h, sortPair_of_le h.le]
  · intro hab
    refine ⟨?_, ?_, ?_⟩
    · intro hle
      constructor
      · rw [getLiquidityForAmounts_of_lt _ _ _ hab, if_pos hle]
      · intro amount1'
        rw [getLiquidityForAmounts_of_lt _ _ _ hab,
          getLiquidityForAmounts_of_lt _ _ _ hab, if_pos hle, if_pos hle]
    · intro hge
      constructor
      · rw [getLiquidityForAmounts_of_lt _ _ _ hab, if_neg (by omega), if_neg (by omega)]
      · intro amount0'
        rw [getLiquidityForAmounts_of_lt _ _ _ hab,
          getLiquidityForAmounts_of_lt _ _ _ hab, if_neg (by omega), if_neg (by omega),
          if_neg (by omega), if_neg (by omega)]
    · intro h1 h2
      refine ⟨amount0 * (sqrtP * b / Q96) / (b - sqrtP), amount1 * Q96 / (sqrtP - a),
        getLiquidityForAmount0_eq amount0 h2, getLiquidityForAmount1_eq amount1 h1, ?_⟩
      rw [getLiquidityForAmounts_of_lt _ _ _ hab, if_neg (by omega), if_pos h2,
        getLiquidityForAmount0_eq amount0 h2, getLiquidityForAmount1_eq amount1 h1]
      simp only [Option.bind_eq_bind, Option.some_bind]
      congr 1
      rcases lt_or_ge (amount0 * (sqrtP * b / Q96) / (b - sqrtP))
        (amount1 * Q96 / (sqrtP - a)) with h | h
      · simp [h, min_eq_left h.le]
      · simp [not_lt.mpr h, min_eq_right h]

/-- Claim C8: whenever the two price bounds coincide (a zero-width
range), the liquidity computation fails explicitly at the division by the
zero-width range (`BigInt` division by zero throws, modelled by `none`)
and never returns a value. -/
theorem zero_width_range_fails (a sqrtP amount0 amount1 x y : Nat) :
    getLiquidityForAmount0 a a amount0 = none ∧
    getLiquidityForAmount1 a a amount1 = none ∧
    getLiquidityForAmounts sqrtP a a x y = none := by
  have h0 : ∀ z : Nat, getLiquidityForAmount0 a a z = none := by
    intro z
    simp [getLiquidityForAmount0, sortPair_of_le le_rfl, bdiv, Q96_ne_zero]
  have h1 : ∀ z : Nat, getLiquidityForAmount1 a a z = none := by
    intro z
    simp [getLiquidityForAmount1, sortPair_of_le le_rfl, bdiv]
  refine ⟨h0 amount0, h1 amount1, ?_⟩
  unfold getLiquidityForAmounts
  rw [sortPair_of_le le_rfl]
  by_cases h : sqrtP ≤ a
  · rw [if_pos h]
    exact h0 x
  · rw [if_neg h, if_neg (by omega)]
    exact h1 y

end Liqu

namespace Liqu

/-- C2 witness -/
theorem getLiquidityForAmounts_spec_witness :
    getLiquidityForAmounts 50 100 200 7 9 = getLiquidityForAmount0 100 200 7 ∧
    getLiquidityForAmounts 50 100 200 7 9 = getLiquidityForAmounts 50 100 200 7 123 ∧
    getLiquidityForAmounts 250 100 200 7 9 = getLiquidityForAmount1 100 200 9 ∧
    getLiquidityForAmounts 250 100 200 7 9 = getLiquidityForAmounts 250 100 200 55 9 ∧
    (∃ liq0 liq1,
      getLiquidityForAmount0 150 200 7 = some liq0 ∧
      getLiquidityForAmount1 100 150 9 = some liq1 ∧
      getLiquidityForAmounts 150 100 200 7 9 = some (min liq0 liq1)) ∧
    getLiquidityForAmounts 150 100 200 7 9 = getLiquidityForAmounts 150 200 100 7 9 := by
  refine ⟨?_, ?_, ?_, ?_, ?_, ?_⟩
  · exact (((getLiquidityForAmounts_spec 50 100 200 7 9).2 (by decide)).1 (by decide)).1
  · exact (((getLiquidityForAmounts_spec 50 100 200 7 9).2 (by decide)).1 (by decide)).2 123
  · exact (((getLiquidityForAmounts_spec 250 100 200 7 9).2 (by decide)).2.1 (by decide)).1
  · exact (((getLiquidityForAmounts_spec 250 100 200 7 9).2 (by decide)).2.1 (by decide)).2 55
  · exact ((getLiquidityForAmounts_spec 150 100 200 7 9).2 (by decide)).2.2 (by decide) (by decide)
  · exact (getLiquidityForAmounts_spec 150 100 200 7 9).1

/-- Claim C3: `executeMintPosition` computes candidate liquidity `L` via
`getLiquidityForAmounts` from the current pool sqrt price and the two
tick bounds converted through `tickToSqrtPriceX96`, scales it by 99/100
with rounding-down integer division, returns the no-op result
(`undefined`, no submission) exactly when the scaled value is zero, and
any liquidity it does submit satisfies `100·l ≤ 99·L` — never more than
99% of the theoretical maximum. -/
theorem executeMintPosition_spec (sqrtPriceCurrent : Nat) (tickLower tickUpper : Int)
    (amount0Max amount1Max L : Nat)
    (hL : getLiquidityForAmounts sqrtPriceCurrent (tickToSqrtPriceX96 tickLower)
      (tickToSqrtPriceX96 tickUpper) amount0Max amount1Max = some L) :
    (L * 99 / 100 = 0 →
      executeMintPosition sqrtPriceCurrent tickLower tickUpper amount0Max amount1Max =
        some .skipped) ∧
    (L * 99 / 100 ≠ 0 →
      executeMintPosition sqrtPriceCurrent tickLower tickUpper amount0Max amount1Max =
        some (.minted (L * 99 / 100))) ∧
    (∀ l : Nat,
      executeMintPosition sqrtPriceCurrent tickLower tickUpper amount0Max amount1Max =
        some (.minted l) →
      l = L * 99 / 100 ∧ 100 * l ≤ 99 * L ∧ 0 < l) := by
  unfold executeMintPosition
  dsimp only
  rw [hL]
  simp only [Option.bind_eq_bind, Option.some_bind]
  refine ⟨?_, ?_, ?_⟩
  · intro h
    rw [if_pos h]
    rfl
  · intro h
    rw [if_neg h]
    rfl
  · intro l hl
    by_cases h : L * 99 / 100 = 0
    · rw [if_pos h] at hl
      simp at hl
    · rw [if_neg h] at hl
      simp only [pure, Option.some.injEq, MintOutcome.minted.injEq] at hl
      refine ⟨hl.symm, ?_, ?_⟩
      · rw [← hl]
        calc 100 * (L * 99 / 100) = L * 99 / 100 * 100 := by ring
          _ ≤ L * 99 := Nat.div_mul_le_self _ _
          _ = 99 * L := by ring
      · omega

/-- C3 witness -/
theorem executeMintPosition_spec_witness :
    getLiquidityForAmounts (2 ^ 96) (tickToSqrtPriceX96 (-60)) (tickToSqrtPriceX96 60)
      (10 ^ 18) (10 ^ 18) = some 333850249709699449134 ∧
    executeMintPosition (2 ^ 96) (-60) 60 (10 ^ 18) (10 ^ 18) =
      some (.minted (333850249709699449134 * 99 / 100)) ∧
    100 * (333850249709699449134 * 99 / 100) ≤ 99 * 333850249709699449134 := by
  have hL : getLiquidityForAmounts (2 ^ 96) (tickToSqrtPriceX96 (-60)) (tickToSqrtPriceX96 60)
      (10 ^ 18) (10 ^ 18) = some 333850249709699449134 := by decide
  refine ⟨hL, ?_, ?_⟩
  · exact (executeMintPosition_spec (2 ^ 96) (-60) 60 (10 ^ 18) (10 ^ 18)
      333850249709699449134 hL).2.1 (by decide)
  · exact ((executeMintPosition_spec (2 ^ 96) (-60) 60 (10 ^ 18) (10 ^ 18)
      333850249709699449134 hL).2.2 (333850249709699449134 * 99 / 100)
      ((executeMintPosition_spec (2 ^ 96) (-60) 60 (10 ^ 18) (10 ^ 18)
        333850249709699449134 hL).2.1 (by decide))).2.1

end Liqu

namespace Liqu

/-- Claim C4: `executeRebalance` closes every listed position of the
deposit in order (one close result per position), re-reads the remaining
balances, and mints exactly once with the full remaining balances and
the new bounds only when at least one balance is nonzero; when both
re-read balances are zero it short-circuits with `newTokenId = none`,
`mintResult = none`, and one close entry per closed position. -/
theorem executeRebalance_spec (newTickLower newTickUpper : Int) (env : RebalanceEnv) :
    ((executeRebalance newTickLower newTickUpper env).2.closeTxHashes =
      env.positionTokenIds.map (fun t => CloseResult.mk t (env.closeTx t))) ∧
    ((executeRebalance newTickLower newTickUpper env).2.closeTxHashes.length =
      env.positionTokenIds.length) ∧
    (env.amount0Remaining = 0 → env.amount1Remaining = 0 →
      (executeRebalance newTickLower newTickUpper env).1 =
        env.positionTokenIds.map RebalanceOp.closePosition ∧
      (executeRebalance newTickLower newTickUpper env).2.mintResult = none ∧
      (executeRebalance newTickLower newTickUpper env).2.newTokenId = none) ∧
    (¬ (env.amount0Remaining = 0 ∧ env.amount1Remaining = 0) →
      (executeRebalance newTickLower newTickUpper env).1 =
        env.positionTokenIds.map RebalanceOp.closePosition ++
          [RebalanceOp.mintPosition newTickLower newTickUpper
            env.amount0Remaining env.amount1Remaining] ∧
      (executeRebalance newTickLower newTickUpper env).2.mintResult = env.mintReturn ∧
      (executeRebalance newTickLower newTickUpper env).2.newTokenId =
        env.mintReturn.bind MintResult.tokenId) := by
  unfold executeRebalance
  dsimp only
  by_cases h : env.amount0Remaining = 0 ∧ env.amount1Remaining = 0
  · rw [if_pos h]
    refine ⟨rfl, by simp, fun _ _ => ⟨rfl, rfl, rfl⟩, fun hc => absurd h hc⟩
  · rw [if_neg h]
    refine ⟨rfl, by simp, fun h0 h1 => absurd ⟨h0, h1⟩ h, fun _ => ⟨rfl, rfl, rfl⟩⟩

/-- C4 witness: Scenario C — both re-read balances are zero. -/
theorem executeRebalance_spec_witness :
    (executeRebalance (-202200) (-201000)
      { positionTokenIds := [3, 8], closeTx := fun _ => "0xabc",
        amount0Remaining := 0, amount1Remaining := 0, mintReturn := none }).1 =
      [RebalanceOp.closePosition 3, RebalanceOp.closePosition 8] ∧
    (executeRebalance (-202200) (-201000)
      { positionTokenIds := [3, 8], closeTx := fun _ => "0xabc",
        amount0Remaining := 0, amount1Remaining := 0, mintReturn := none }).2.mintResult =
      none ∧
    (executeRebalance (-202200) (-201000)
      { positionTokenIds := [3, 8], closeTx := fun _ => "0xabc",
        amount0Remaining := 0, amount1Remaining := 0, mintReturn := none }).2.newTokenId =
      none ∧
    (executeRebalance (-202200) (-201000)
      { positionTokenIds := [3, 8], closeTx := fun _ => "0xabc",
        amount0Remaining := 0, amount1Remaining := 0, mintReturn := none
        }).2.closeTxHashes.length = 2 := by
  have h := executeRebalance_spec (-202200) (-201000)
    { positionTokenIds := [3, 8], closeTx := fun _ => "0xabc",
      amount0Remaining := 0, amount1Remaining := 0, mintReturn := none }
  obtain ⟨hops, hres, hzero⟩ := h.2.2.1 rfl rfl
  exact ⟨hops, hres, hzero, h.2.1⟩

/-- C6 counterexample: an error raised while querying or processing
events leaves the watermark where it was instead of advancing it to the
current height. -/
theorem pollStep_not_unconditional :
    pollStep 5 10 false = 5 ∧ (5 : Nat) ≠ 10 := by decide

/-- Claim C6 (amended): the watermark is initialized on the first run to
`max(0, currentHeight − 100)`; if the chain has not advanced past the
watermark the step does nothing; otherwise both event windows over
`(watermark+1, currentHeight]` are queried and the watermark advances to
`currentHeight` only when the query-and-process body raised no error —
on an error, which is caught and logged rather than terminating the
loop, the watermark is left unchanged so the window is retried. -/
theorem pollStep_spec (lastBlock currentBlock : Nat) (bodyOk : Bool) :
    (lastBlock = 0 → 0 < currentBlock →
      pollQueries lastBlock currentBlock =
        [(currentBlock - 100 + 1, currentBlock), (currentBlock - 100 + 1, currentBlock)] ∧
      (bodyOk = true → pollStep lastBlock currentBlock bodyOk = currentBlock) ∧
      (bodyOk = false → pollStep lastBlock currentBlock bodyOk = currentBlock - 100)) ∧
    (lastBlock ≠ 0 → currentBlock ≤ lastBlock →
      pollStep lastBlock currentBlock bodyOk = lastBlock ∧
      pollQueries lastBlock currentBlock = []) ∧
    (lastBlock ≠ 0 → lastBlock < currentBlock →
      pollQueries lastBlock currentBlock =
        [(lastBlock + 1, currentBlock), (lastBlock + 1, currentBlock)] ∧
      (bodyOk = true → pollStep lastBlock currentBlock bodyOk = currentBlock) ∧
      (bodyOk = false → pollStep lastBlock currentBlock bodyOk = lastBlock)) := by
  refine ⟨?_, ?_, ?_⟩
  · intro h0 hc
    unfold pollStep pollQueries
    rw [if_pos h0]
    dsimp only
    refine ⟨?_, ?_, ?_⟩
    · rw [if_neg (show ¬ currentBlock ≤ currentBlock - 100 from by omega)]
    · intro hb
      subst hb
      rw [if_neg (show ¬ currentBlock ≤ currentBlock - 100 from by omega)]
      rfl
    · intro hb
      subst hb
      rw [if_neg (show ¬ currentBlock ≤ currentBlock - 100 from by omega)]
      rfl
  · intro h0 hc
    unfold pollStep pollQueries
    rw [if_neg h0]
    dsimp only
    exact ⟨by rw [if_pos hc], by rw [if_pos hc]⟩
  · intro h0 hc
    unfold pollStep pollQueries
    rw [if_neg h0]
    dsimp only
    refine ⟨?_, ?_, ?_⟩
    · rw [if_neg (show ¬ currentBlock ≤ lastBlock from by omega)]
    · intro hb
      subst hb
      rw [if_neg (show ¬ currentBlock ≤ lastBlock from by omega)]
      rfl
    · intro hb
      subst hb
      rw [if_neg (show ¬ currentBlock ≤ lastBlock from by omega)]
      rfl

/-- C6 witness -/
theorem pollStep_spec_witness :
    pollQueries 0 500 = [(401, 500), (401, 500)] ∧
    pollStep 0 500 true = 500 ∧
    pollStep 7 7 true = 7 ∧
    pollQueries 7 7 = [] ∧
    pollQueries 7 12 = [(8, 12), (8, 12)] ∧
    pollStep 7 12 true = 12 ∧
    pollStep 7 12 false = 7 := by
  refine ⟨?_, ?_, ?_, ?_, ?_, ?_, ?_⟩
  · exact ((pollStep_spec 0 500 true).1 rfl (by decide)).1
  · exact ((pollStep_spec 0 500 true).1 rfl (by decide)).2.1 rfl
  · exact ((pollStep_spec 7 7 true).2.1 (by decide) (by decide)).1
  · exact ((pollStep_spec 7 7 true).2.1 (by decide) (by decide)).2
  · exact ((pollStep_spec 7 12 true).2.2 (by decide) (by decide)).1
  · exact ((pollStep_spec 7 12 true).2.2 (by decide) (by decide)).2.1 rfl
  · exact ((pollStep_spec 7 12 false).2.2 (by decide) (by decide)).2.2 rfl

/-- C9 counterexample: in the `part_004` variant of `processDeposit` a
decision with confidence 40 (< 60) still reaches `executeDecision`. -/
theorem confidence_gate_not_universal :
    (processDepositDecisionStageNoGate
      { action := .MINT, tickLower := some (-202200), tickUpper := some (-201000),
        reason := "r", confidence := 40 }).executed = true ∧
    (40 : Nat) < 60 := by decide

/-- Claim C9 (amended): only the `agent.ts` `processDeposit` path applies
the confidence gate — a decision with confidence < 60 is downgraded to a
no-op there, with no validation request and no `executeDecision` call,
while at confidence ≥ 60 it validates non-HOLD decisions and executes;
the `part_004` `processDeposit` path applies no gate and always reaches
`executeDecision`, requesting validation exactly for non-HOLD actions. -/
theorem confidence_gate_amended (decision : PositionDecision) :
    (decision.confidence < 60 →
      processDepositDecisionStage decision =
        { validationRequested := false, executed := false }) ∧
    (60 ≤ decision.confidence →
      processDepositDecisionStage decision =
        { validationRequested := decide (decision.action ≠ .HOLD), executed := true }) ∧
    (processDepositDecisionStageNoGate decision =
      { validationRequested := decide (decision.action ≠ .HOLD), executed := true }) := by
  unfold processDepositDecisionStage processDepositDecisionStageNoGate
  refine ⟨?_, ?_, rfl⟩
  · intro h
    rw [if_pos h]
  · intro h
    rw [if_neg (by omega)]

/-- C9 witness -/
theorem confidence_gate_amended_witness :
    processDepositDecisionStage
      { action := .MINT, reason := "r", confidence := 40 } =
      { validationRequested := false, executed := false } ∧
    processDepositDecisionStage
      { action := .MINT, reason := "r", confidence := 75 } =
      { validationRequested := true, executed := true } := by
  constructor
  · exact (confidence_gate_amended
      { action := .MINT, reason := "r", confidence := 40 }).1 (by decide)
  · have h := (confidence_gate_amended
      { action := .MINT, reason := "r", confidence := 75 }).2.1 (by decide)
    simpa using h

end Liqu

namespace Liqu

theorem mem_cacheSet_key (cache : List (Nat × Int × Int)) (tokenId : Nat)
    (tickLower tickUpper : Int) (k : Nat) :
    (∃ a b : Int, (k, a, b) ∈ cacheSet cache tokenId tickLower tickUpper) ↔
      (k = tokenId ∨ ∃ a b : Int, (k, a, b) ∈ cache) := by
  unfold cacheSet
  by_cases hany : cache.any (fun e => e.1 = tokenId)
  · rw [if_pos hany]
    constructor
    · rintro ⟨a, b, hm⟩
      rw [List.mem_map] at hm
      obtain ⟨e, he, hfe⟩ := hm
      by_cases hek : e.1 = tokenId
      · rw [if_pos hek] at hfe
        left
        exact (congrArg Prod.fst hfe).symm
      · rw [if_neg hek] at hfe
        right
        exact ⟨a, b, hfe ▸ he⟩
    · rintro (rfl | ⟨a, b, hm⟩)
      · obtain ⟨e, he, hek⟩ := List.any_eq_true.mp hany
        refine ⟨tickLower, tickUpper, List.mem_map.mpr ⟨e, he, ?_⟩⟩
        rw [if_pos (by simpa using hek)]
      · by_cases hk : k = tokenId
        · subst hk
          obtain ⟨e, he, hek⟩ := List.any_eq_true.mp hany
          refine ⟨tickLower, tickUpper, List.mem_map.mpr ⟨e, he, ?_⟩⟩
          rw [if_pos (by simpa using hek)]
        · refine ⟨a, b, List.mem_map.mpr ⟨(k, a, b), hm, ?_⟩⟩
          rw [if_neg hk]
  · rw [if_neg hany]
    constructor
    · rintro ⟨a, b, hm⟩
      rw [List.mem_append, List.mem_singleton] at hm
      rcases hm with hm | hm
      · exact Or.inr ⟨a, b, hm⟩
      · exact Or.inl (congrArg Prod.fst hm)
    · rintro (rfl | ⟨a, b, hm⟩)
      · exact ⟨tickLower, tickUpper, by simp⟩
      · exact ⟨a, b, by simp [hm]⟩

theorem mem_cacheDelete_key (cache : List (Nat × Int × Int)) (tokenId k : Nat) :
    (∃ a b : Int, (k, a, b) ∈ cacheDelete cache tokenId) ↔
      (k ≠ tokenId ∧ ∃ a b : Int, (k, a, b) ∈ cache) := by
  unfold cacheDelete
  constructor
  · rintro ⟨a, b, hm⟩
    rw [List.mem_filter] at hm
    exact ⟨by simpa using hm.2, a, b, hm.1⟩
  · rintro ⟨hk, a, b, hm⟩
    exact ⟨a, b, List.mem_filter.mpr ⟨hm, by simpa using hk⟩⟩

/-- Claim C5: side-cache invariant — starting from the empty state, a
cache entry mapping a position id to its tick bounds is added exactly
when a mint confirms (keyed by the id from the emitted creation record)
and removed exactly when the matching close confirms, so at every
reachable state a cache entry for an id exists iff that position is
currently open. -/
theorem positionTickCache_invariant (s : AgentChainState) (tokenId : Nat)
    (h : ReachableState s) :
    (∃ tickLower tickUpper : Int,
      (tokenId, tickLower, tickUpper) ∈ s.positionTickCache) ↔
      tokenId ∈ s.openPositions := by
  induction h with
  | init => simp
  | @step s' e _ ih =>
    cases e with
    | mintConfirm id tl tu =>
      simp only [stepState]
      rw [mem_cacheSet_key]
      rw [List.mem_append, List.mem_singleton]
      constructor
      · rintro (rfl | hm)
        · exact Or.inr rfl
        · exact Or.inl (ih.mp hm)
      · rintro (hm | rfl)
        · exact Or.inr (ih.mpr hm)
        · exact Or.inl rfl
    | closeConfirm id =>
      simp only [stepState]
      rw [mem_cacheDelete_key]
      rw [List.mem_filter]
      constructor
      · rintro ⟨hk, hm⟩
        exact ⟨ih.mp hm, by simpa using hk⟩
      · rintro ⟨hm, hk⟩
        exact ⟨by simpa using hk, ih.mpr hm⟩

/-- C5 witness -/
theorem positionTickCache_invariant_witness :
    ((∃ tickLower tickUpper : Int, ((7 : Nat), tickLower, tickUpper) ∈
      (stepState (stepState ⟨[], []⟩ (.mintConfirm 7 (-202200) (-201000)))
        (.closeConfirm 7)).positionTickCache) ↔
      (7 : Nat) ∈ (stepState (stepState ⟨[], []⟩ (.mintConfirm 7 (-202200) (-201000)))
        (.closeConfirm 7)).openPositions) ∧
    ((∃ tickLower tickUpper : Int, ((7 : Nat), tickLower, tickUpper) ∈
      (stepState ⟨[], []⟩ (.mintConfirm 7 (-202200) (-201000))).positionTickCache) ↔
      (7 : Nat) ∈ (stepState ⟨[], []⟩ (.mintConfirm 7 (-202200) (-201000))).openPositions) := by
  constructor
  · exact positionTickCache_invariant _ 7
      (ReachableState.step _ (ReachableState.step _ ReachableState.init))
  · exact positionTickCache_invariant _ 7 (ReachableState.step _ ReachableState.init)

end Liqu

namespace Liqu

theorem mem_setResponse (dataHash : String) (score : ℚ) (s : List ValidationRecord) :
    ∀ r ∈ setResponse dataHash score s,
      r ∈ s ∨ (r.responded = true ∧ r.score = some score) := by
  induction s with
  | nil =>
    intro r hr
    simp [setResponse] at hr
  | cons a as ih =>
    intro r hr
    unfold setResponse at hr
    by_cases ha : a.dataHash = dataHash
    · rw [if_pos ha] at hr
      rcases List.mem_cons.mp hr with rfl | hr
      · exact Or.inr ⟨rfl, rfl⟩
      · exact Or.inl (List.mem_cons_of_mem a hr)
    · rw [if_neg ha] at hr
      rcases List.mem_cons.mp hr with rfl | hr
      · exact Or.inl (List.mem_cons.mpr (Or.inl rfl))
      · rcases ih r hr with h | h
        · exact Or.inl (List.mem_cons_of_mem a h)
        · exact Or.inr h

theorem mem_mergeOnChainEvents (s : List ValidationRecord)
    (requestLogs : List ValidationRequestEvent)
    (responseLogs : List ValidationResponseEvent) :
    ∀ r ∈ mergeOnChainEvents s requestLogs responseLogs,
      r ∈ s ∨ r.responded = r.score.isSome := by
  intro r hr
  unfold mergeOnChainEvents at hr
  dsimp only at hr
  rw [List.mem_append] at hr
  rcases hr with hr | hr
  · exact Or.inl hr
  · right
    rw [List.mem_map] at hr
    obtain ⟨e, _, rfl⟩ := hr
    rfl

theorem validationStore_responded_iff (s : List ValidationRecord) (h : ReachableStore s) :
    ∀ r ∈ s, r.responded = r.score.isSome := by
  induction h with
  | init => simp
  | request dataHash myAgentId validatorAgentId timestamp _ ih =>
    intro r hr
    rw [List.mem_append, List.mem_singleton] at hr
    rcases hr with hr | rfl
    · exact ih r hr
    · rfl
  | respond dataHash score _ ih =>
    intro r hr
    rcases mem_setResponse dataHash score _ r hr with h' | h'
    · exact ih r h'
    · rw [h'.1, h'.2]
      rfl
  | merge requestLogs responseLogs _ ih =>
    intro r hr
    rcases mem_mergeOnChainEvents _ requestLogs responseLogs r hr with h' | h'
    · exact ih r h'
    · exact h'

/-- Claim C10: in every reachable validation store, a record is
`responded` exactly when its score is non-null — established by
`requestValidation` (appends score-null, unresponded records), preserved
by `submitValidationResponse` (sets score and responded together) and by
the on-chain event merge (marks responded exactly when a response score
was found) — and consequently `getValidationStatus` on an in-memory
responded record returns RESPONDED together with a numeric score. -/
theorem validationStore_invariant (s : List ValidationRecord) (h : ReachableStore s) :
    (∀ r ∈ s, r.responded = r.score.isSome) ∧
    (∀ (dataHash : String) (r : ValidationRecord),
      s.find? (fun r' => r'.dataHash = dataHash) = some r →
      r.responded = true →
      ∃ q : ℚ, getValidationStatusLocal s dataHash = some (.RESPONDED (some q))) := by
  have hinv := validationStore_responded_iff s h
  refine ⟨hinv, ?_⟩
  intro dataHash r hfind hresp
  have hmem : r ∈ s := List.mem_of_find?_eq_some hfind
  have hscore : r.score.isSome := by
    rw [← hinv r hmem]
    exact hresp
  obtain ⟨q, hq⟩ := Option.isSome_iff_exists.mp hscore
  refine ⟨q, ?_⟩
  unfold getValidationStatusLocal
  rw [hfind]
  dsimp only
  rw [if_pos hresp, hq]

/-- C10 witness -/
theorem validationStore_invariant_witness :
    ∃ q : ℚ,
      getValidationStatusLocal (setResponse "h" 80 ([] ++ [requestRecord "h" 1 2 0])) "h" =
        some (.RESPONDED (some q)) := by
  refine (validationStore_invariant _
    (ReachableStore.respond "h" 80 (ReachableStore.request "h" 1 2 0 ReachableStore.init))).2
    "h" { dataHash := "h", agentId := 1, validatorId := 2, score := some 80,
          responded := true, timestamp := 0 } ?_ rfl
  rfl

end Liqu

namespace Liqu

theorem filter_score_map_getD (l : List ValidationRecord) :
    (l.filter (fun r => r.score ≠ none)).map (fun r => r.score.getD 0) =
      l.filterMap (fun r => r.score) := by
  induction l with
  | nil => rfl
  | cons a as ih =>
    cases ha : a.score with
    | none =>
      rw [List.filter_cons_of_neg (by simp [ha]), List.filterMap_cons_none (by simp [ha])]
      exact ih
    | some q =>
      rw [List.filter_cons_of_pos (by simp [ha]), List.filterMap_cons_some ha,
        List.map_cons, ha]
      simp only [Option.getD_some]
      exact congrArg (List.cons q) ih

/-- Claim C7: `getAgentReputation` returns
`reputationScore = round(0.6·averageScore + 0.2·responseRatePercent +
0.2·trustRatioPercent)` where `averageScore` is the mean of the non-null
scores of the agent's records, `responseRatePercent` is responded
records over total records times 100 (0 when there are no records), and
`trustRatioPercent` is inbound feedback authorizations over
`max(totalAgents − 1, 1)` times 100; an agent with zero validation
records and zero feedback authorizations scores exactly 50. -/
theorem getAgentReputation_spec (store : List ValidationRecord)
    (agentId totalAgents : Nat) (feedbackAuthorized : Nat → Bool)
    (recs : List ValidationRecord) (scores : List ℚ) (auths : Nat)
    (hrecs : recs = store.filter (fun r => r.agentId = agentId))
    (hscores : scores = recs.filterMap (fun r => r.score))
    (hauths : auths = ((List.range' 1 totalAgents).filter
      (fun i => decide (i ≠ agentId) && feedbackAuthorized i)).length) :
    ((getAgentReputation store agentId totalAgents feedbackAuthorized).reputationScore =
      if recs = [] ∧ auths = 0 then 50
      else jsRound ((0.6 : ℚ) * (if scores = [] then 0 else scores.sum / (scores.length : ℚ)) +
        (0.2 : ℚ) * (if recs = [] then 0
          else ((recs.countP (fun r => r.responded) : ℚ) / (recs.length : ℚ)) * 100) +
        (0.2 : ℚ) * (((auths : ℚ) / ((max (totalAgents - 1) 1 : ℕ) : ℚ)) * 100))) ∧
    (recs = [] → auths = 0 →
      (getAgentReputation store agentId totalAgents feedbackAuthorized).reputationScore =
        50) := by
  subst hrecs
  subst hscores
  subst hauths
  unfold getAgentReputation
  dsimp only
  rw [filter_score_map_getD, List.countP_eq_length_filter]
  constructor
  · simp only [gt_iff_lt, List.length_eq_zero, List.length_pos]
    split_ifs <;>
      first
        | rfl
        | (exfalso; simp_all; done)
        | (congr 1; ring)
  · intro hA hauth
    have h1 : (store.filter (fun r => r.agentId = agentId)).length = 0 := by
      rw [hA]
      rfl
    rw [if_pos ⟨h1, hauth⟩]

end Liqu

namespace Liqu

/-- C7 witness: Scenario D — zero validations, zero feedback authorizations. -/
theorem getAgentReputation_spec_witness :
    (getAgentReputation [] 1 1 (fun _ => false)).reputationScore = 50 := by
  exact (getAgentReputation_spec [] 1 1 (fun _ => false) [] [] 0 rfl rfl rfl).2 rfl rfl

end Liqu
